import Mathlib

/-!
Shallow embedding of the easytix_booking repository (two Python source files:
api/booking.py and easytix_booking/doctype/scheduled_trips/scheduled_trips.py)
together with proofs about the claims of its specification.

Modelling conventions:
* Calendar dates are modelled as natural numbers (their chronological order is
  the order on Nat; the SQL ORDER BY on a date column is the order on these
  codes).  Machine integers of the store are modelled as Int.
* The frappe framework is an external collaborator.  Its services consumed by
  the code (email validation, date parsing, identity generation) are an
  explicit environment value.  The durable store is an explicit Db value
  threaded through every operation; frappe.db.commit publishes the new state
  and frappe.db.rollback restores the entry state, so an operation is a
  function Db -> (Db x result).
* Python exceptions are modelled by Except / error results.  Exception
  messages are carried verbatim except that quote characters are dropped
  (e.g. the Python message Booking ... not found around a quoted name).
* Python dicts are modelled as association lists whose update keeps at most
  one binding per key; only key lookup and the key/value set of a dict are
  observed by the code, so the position of an updated key is immaterial.
-/

namespace Easytix

/-- Scalar value of the store / of filter expressions (string, date, int). -/
inductive FVal where
  | str (s : String)
  | nat (n : Nat)
  | int (n : Int)
deriving DecidableEq, Repr

/-- Python truthiness of a scalar (empty string and zero are falsy). -/
def FVal.truthy : FVal → Bool
  | .str s => s != ""
  | .nat n => n != 0
  | .int n => n != 0

/-- A Python dict with FVal keys and values, as an association list with
unique keys. -/
abbrev Dict := List (FVal × FVal)

/-- Dict update d[k] = v.  The old binding of k (if any) is removed; only
lookup and the key/value set are observed, so this models Python dict
assignment. -/
def dictSet (m : Dict) (k v : FVal) : Dict :=
  m.filter (fun kv => !(kv.1 == k)) ++ [(k, v)]

/-- Dict lookup d.get(k): none when the key is absent. -/
def dictGet (m : Dict) (k : FVal) : Option FVal :=
  (m.find? (fun kv => kv.1 == k)).map (fun kv => kv.2)

/-- A participant record is an opaque field/value mapping (first binding of a
key wins on lookup, so appending a fallback binding at the end models a
Python dict merge where the supplied record overrides the literal). -/
abbrev Participant := List (String × String)

/-- The stored form of a supplied participant record: the record itself plus
the doctype tag as a fallback binding (the dict literal in the source is
doctype first, then **p, so the supplied fields override the tag). -/
def tagParticipant (p : Participant) : Participant :=
  p ++ [("doctype", "Booking Participant")]

/-- A variation_quantity child row: one line item of a booking. -/
structure VariationItem where
  variation : String
  quantity : Int
deriving DecidableEq, Repr

/-- Sum of the line item quantities of a booking. -/
def sumQuantities (l : List VariationItem) : Int :=
  (l.map (fun it => it.quantity)).sum

/-- A Booking document of the store. -/
structure Booking where
  name : String
  booking_name : String
  email : String
  contact_number : String
  package : String
  booking_date : Nat
  status : String
  participants : List Participant
  special_requests : List String
  variation_quantity : List VariationItem
  quantity : Int
deriving DecidableEq, Repr

/-- A Package document (owned externally, referenced by bookings). -/
structure Package where
  name : String
  package_name : String
  resource : String
deriving DecidableEq, Repr

/-- A Resource document (owned externally). -/
structure Resource where
  name : String
  resource_name : String
  capacity : Int
deriving DecidableEq, Repr

/-- The durable store: the three document tables. -/
structure Db where
  bookings : List Booking
  packages : List Package
  resources : List Resource
deriving DecidableEq, Repr

/-- The frappe services used by api/booking.py: email validation
(frappe.utils.validate_email_address), date parsing (frappe.utils.getdate,
none models the ValueError on a malformed date) and the identity the store
assigns to a newly inserted document. -/
structure Env where
  validEmail : String → Bool
  getdate : String → Option Nat
  newName : String

/-- The uniform response envelope of the whitelisted operations: on success
the data object and the message, on error the empty data object and the
message. -/
inductive ApiResult (α : Type) where
  | success (data : α) (message : String)
  | error (message : String)
deriving DecidableEq, Repr

/-- True exactly on the success constructor. -/
def ApiResult.isSuccess : ApiResult α → Bool
  | .success _ _ => true
  | .error _ => false

/-- Boolean test that a string starts with the given string. -/
def strStarts (pre m : String) : Bool :=
  m.data.take pre.data.length == pre.data

/-! ## api/booking.py -/

/-- Arguments of the create operation.  The three optional Python list
parameters are Option values (none models an absent / None argument). -/
structure CreateArgs where
  booking_name : String
  email : String
  contact_number : String
  package : String
  booking_date : String
  variation_quantity : Option (List VariationItem)
  participants : Option (List Participant)
  special_requests : Option (List String)
deriving Repr

/-- Python falsiness of an optional list (None or the empty list). -/
def falsyList : Option (List α) → Bool
  | none => true
  | some l => l.isEmpty

/-- The all([...]) requirement of create: every required field non-empty. -/
def requiredOk (a : CreateArgs) : Bool :=
  !(a.booking_name == "") && !(a.email == "") && !(a.contact_number == "")
    && !(a.package == "") && !(a.booking_date == "")

/-- The distinct failures create can raise, in the order the source checks
them.  packageMissing is the DoesNotExistError of frappe.get_doc; the others
are the ValueError branches of the source. -/
inductive CreateErr where
  | requiredFields
  | packageMissing (p : String)
  | badDate
  | noVariations
  | badEmail
deriving DecidableEq, Repr

/-- The str(e) of each create failure as interpolated into the envelope. -/
def CreateErr.message : CreateErr → String
  | .requiredFields => "All required fields must be provided"
  | .packageMissing p => "Package " ++ p ++ " not found"
  | .badDate => "Invalid booking date format. Use YYYY-MM-DD"
  | .noVariations => "Invalid variations provided"
  | .badEmail => "Invalid email address"

/-- Classification of a create failure against the error taxonomy of the
spec: missing required field, malformed date, empty line item list and
malformed email are InvalidInput; a missing package is NotFound. -/
def CreateErr.isInvalidInput : CreateErr → Bool
  | .packageMissing _ => false
  | _ => true

/-- The body of the try block of create: the validation pipeline in source
order (required fields, package lookup, date parsing, line items, email),
ending with the document that is inserted.  The quantity field is not set by
api/booking.py; it is Modelled from the spec: the Booking doctype controller
(not under src/) derives quantity as the sum of all line item quantities. -/
def createChecks (env : Env) (db : Db) (a : CreateArgs) : Except CreateErr Booking :=
  if requiredOk a then
    match db.packages.find? (fun p => p.name == a.package) with
    | none => .error (.packageMissing a.package)
    | some pkg =>
      match env.getdate a.booking_date with
      | none => .error .badDate
      | some d =>
        if falsyList a.variation_quantity then .error .noVariations
        else if env.validEmail a.email then
          .ok {
            name := env.newName,
            booking_name := a.booking_name,
            email := a.email,
            contact_number := a.contact_number,
            package := pkg.name,
            booking_date := d,
            status := "Created",
            participants := a.participants.getD [],
            special_requests := a.special_requests.getD [],
            variation_quantity := a.variation_quantity.getD [],
            quantity := sumQuantities (a.variation_quantity.getD []) }
        else .error .badEmail
  else .error .requiredFields

/-- create: on success the booking is inserted and committed and the envelope
carries the created document; on any failure the uncommitted write is rolled
back (the entry state is returned) and the envelope carries the failure
message behind the create intent. -/
def create (env : Env) (db : Db) (a : CreateArgs) : Db × ApiResult Booking :=
  match createChecks env db a with
  | .ok b =>
    ({ db with bookings := db.bookings ++ [b] },
     .success b "Booking created successfully")
  | .error e =>
    (db, .error ("Failed to create booking: " ++ e.message))

/-- Writing a document back to the store (booking.save): the stored document
with the same identity is replaced. -/
def saveBooking (db : Db) (b : Booking) : Db :=
  { db with bookings := db.bookings.map (fun x => if x.name == b.name then b else x) }

/-- The data object of a successful finalize. -/
structure FinalizeData where
  name : String
  booking_name : String
  status : String
deriving DecidableEq, Repr

/-- finalize: load the booking (the DoesNotExistError of frappe.get_doc is
answered by the dedicated not-found branch, which does not add the intent
wording), require status Created (otherwise ValueError already finalized,
answered by the generic branch with the intent wording), then set the status
to Pending, save and commit. -/
def finalize (db : Db) (booking_name : String) : Db × ApiResult FinalizeData :=
  match db.bookings.find? (fun b => b.name == booking_name) with
  | none =>
    (db, .error ("Booking " ++ booking_name ++ " not found"))
  | some b =>
    if b.status == "Created" then
      let b2 := { b with status := "Pending" }
      (saveBooking db b2,
       .success { name := b2.name, booking_name := b2.booking_name, status := b2.status }
         "Booking status updated successfully")
    else
      (db, .error ("Failed to update booking status: Booking " ++ booking_name ++ " already finalized"))

/-- The data object of a successful update_manifest.  The source projects
every stored participant row over the field names the Booking Participant
metadata declares (layout fields excluded, absent fields None); that
metadata-driven projection is abstracted here as the identity on the stored
rows. -/
structure UMData where
  name : String
  booking_name : String
  status : String
  participants : List Participant
deriving DecidableEq, Repr

/-- update_manifest: load the booking (missing booking answered by the
dedicated not-found branch), evaluate len(participants) against the stored
quantity (a None argument makes len raise TypeError before any write, caught
by the generic branch), then wholly replace the participant rows with the
supplied records (each tagged with its doctype), save and commit.  Every
failure rolls back, returning the entry state. -/
def update_manifest (db : Db) (booking_name : String)
    (participants : Option (List Participant)) : Db × ApiResult UMData :=
  match db.bookings.find? (fun b => b.name == booking_name) with
  | none =>
    (db, .error ("Booking " ++ booking_name ++ " not found"))
  | some b =>
    match participants with
    | none =>
      (db, .error "Failed to update booking status: object of type NoneType has no len()")
    | some ps =>
      if (ps.length : Int) > b.quantity then
        (db, .error "Failed to update booking status: Manifest has too many participants")
      else
        let b2 := { b with participants := ps.map tagParticipant }
        (saveBooking db b2,
         .success { name := b2.name, booking_name := b2.booking_name,
                    status := b2.status, participants := b2.participants }
           "Booking status updated successfully")

/-! ## scheduled_trips.py -/

/-- The two wire shapes of the filters argument (after JSON decoding): a
mapping, or a list of operator tuples of any arity. -/
inductive FilterArg where
  | dict (m : Dict)
  | list (l : List (List FVal))

/-- One foldl step of simple_filters_to_dict: a tuple contributes exactly
when it has arity 4 and its operator element is the equality operator. -/
def sftdStep (out : Dict) (f : List FVal) : Dict :=
  match f with
  | [_, fieldname, op, value] =>
    if op == FVal.str "=" then dictSet out fieldname value else out
  | _ => out

/-- simple_filters_to_dict: convert list-style filters with = into a plain
dict (every other tuple is silently dropped). -/
def simple_filters_to_dict (filters : List (List FVal)) : Dict :=
  filters.foldl sftdStep []

/-- The filter normalization of get_list: absent filters default to the
empty list, a list shape is converted by simple_filters_to_dict, a dict
passes through. -/
def normFilters : Option FilterArg → Dict
  | none => []
  | some (.list l) => simple_filters_to_dict l
  | some (.dict m) => m

/-- The args mapping of get_list: pagination values (absent keys default to
0 and 20) and the filters entry. -/
structure ListArgs where
  limit_start : Option Nat
  limit_page_length : Option Nat
  filters : Option FilterArg

/-- A row of the joined FROM clause: a booking with its package and the
resource of that package (INNER JOIN: bookings whose package or resource is
missing produce no row). -/
structure JRow where
  b : Booking
  p : Package
  r : Resource
deriving DecidableEq, Repr

/-- One row of the INNER JOIN for one booking: none when the package of the
booking, or the resource of that package, is missing. -/
def joinOne (db : Db) (b : Booking) : Option JRow :=
  match db.packages.find? (fun p => p.name == b.package) with
  | none => none
  | some p =>
    match db.resources.find? (fun r => r.name == p.resource) with
    | none => none
    | some r => some { b := b, p := p, r := r }

/-- The joined table of the get_list query. -/
def joinedRows (db : Db) : List JRow :=
  db.bookings.filterMap (joinOne db)

/-- The two optional WHERE conditions of get_list: an equality on package
and on booking_date, each added only when the dict carries a truthy value
under the recognized key. -/
def condMatch (fd : Dict) (b : Booking) : Bool :=
  (match dictGet fd (FVal.str "package") with
   | some v => if v.truthy then FVal.str b.package == v else true
   | none => true)
  &&
  (match dictGet fd (FVal.str "booking_date") with
   | some v => if v.truthy then FVal.nat b.booking_date == v else true
   | none => true)

/-- The WHERE clause of the get_list query: status Approved plus the
normalized filter conditions. -/
def whereRows (db : Db) (fd : Dict) : List JRow :=
  (joinedRows db).filter (fun jr => jr.b.status == "Approved" && condMatch fd jr.b)

/-- A grouped row of the get_list query (the SELECT list before the id
augmentation; the package column is the package display name). -/
structure TripRow where
  name : String
  booking_date : Nat
  package : String
  resource : String
  resource_name : String
  capacity : Int
  quantity : Int
deriving DecidableEq, Repr

/-- A result row of get_list after the synthetic id augmentation. -/
structure TripRowOut extends TripRow where
  id : String
deriving DecidableEq, Repr

/-- GROUP BY b.package, b.booking_date over the WHERE rows: one output row
per distinct key, carrying the representative scalar columns of the group
and the summed quantity. -/
def groupRows (db : Db) (fd : Dict) : List TripRow :=
  let rs := whereRows db fd
  ((rs.map (fun jr => (jr.b.package, jr.b.booking_date))).dedup).filterMap (fun key =>
    match rs.filter (fun jr => jr.b.package == key.1 && jr.b.booking_date == key.2) with
    | [] => none
    | jr :: tl => some {
        name := jr.b.name,
        booking_date := jr.b.booking_date,
        package := jr.p.package_name,
        resource := jr.p.resource,
        resource_name := jr.r.resource_name,
        capacity := jr.r.capacity,
        quantity := ((jr :: tl).map (fun x => x.b.quantity)).sum })

/-- The ORDER BY relation of get_list: booking_date ascending, then package
display name ascending. -/
def keyOrd (a b : TripRow) : Prop :=
  a.booking_date < b.booking_date
    ∨ (a.booking_date = b.booking_date ∧ a.package ≤ b.package)

instance : DecidableRel keyOrd := fun a b => by
  unfold keyOrd; infer_instance

instance : IsTotal TripRow keyOrd := by
  constructor
  intro a b
  rcases Nat.lt_trichotomy a.booking_date b.booking_date with h | h | h
  · exact Or.inl (Or.inl h)
  · rcases le_total a.package b.package with h2 | h2
    · exact Or.inl (Or.inr ⟨h, h2⟩)
    · exact Or.inr (Or.inr ⟨h.symm, h2⟩)
  · exact Or.inr (Or.inl h)

instance : IsTrans TripRow keyOrd := by
  constructor
  intro a b c hab hbc
  rcases hab with h1 | ⟨h1, h1p⟩
  · rcases hbc with h2 | ⟨h2, _⟩
    · exact Or.inl (h1.trans h2)
    · exact Or.inl (h2 ▸ h1)
  · rcases hbc with h2 | ⟨h2, h2p⟩
    · exact Or.inl (h1 ▸ h2)
    · exact Or.inr ⟨h1.trans h2, le_trans h1p h2p⟩

/-- The synthetic id of a result row: package display name, a hyphen, the
date. -/
def addId (t : TripRow) : TripRowOut :=
  { toTripRow := t, id := t.package ++ "-" ++ toString t.booking_date }

/-- get_list: normalize the filters, evaluate the grouped query, order by
(booking_date asc, package display name asc), apply OFFSET limit_start and
LIMIT limit_page_length after the ordering, then add the synthetic id to
each returned row. -/
def get_list (db : Db) (args : ListArgs) : List TripRowOut :=
  let limit_start := args.limit_start.getD 0
  let limit_page_length := args.limit_page_length.getD 20
  let fd := normFilters args.filters
  let sorted := List.insertionSort keyOrd (groupRows db fd)
  ((sorted.drop limit_start).take limit_page_length).map addId

/-- The Booking columns the store can filter on (a filter on any other key
raises in the store and is modelled as none). -/
def Booking.column (b : Booking) : String → Option FVal
  | "name" => some (.str b.name)
  | "booking_name" => some (.str b.booking_name)
  | "email" => some (.str b.email)
  | "contact_number" => some (.str b.contact_number)
  | "package" => some (.str b.package)
  | "booking_date" => some (.nat b.booking_date)
  | "status" => some (.str b.status)
  | "quantity" => some (.int b.quantity)
  | _ => none

/-- Evaluation of a filters dict against one booking row, as the store does
for get_all: the conjunction of one equality per dict entry; a non-string
key or an unknown column is a query error (none). -/
def rowMatch (b : Booking) : Dict → Option Bool
  | [] => some true
  | kv :: rest =>
    match rowMatch b rest with
    | none => none
    | some r =>
      match kv.1 with
      | FVal.str f =>
        match b.column f with
        | none => none
        | some col => some (r && (col == kv.2))
      | _ => none

/-- The rows of the bookings table matching a filters dict (none when the
dict is not a valid query). -/
def matchedBookings (fd : Dict) : List Booking → Option (List Booking)
  | [] => some []
  | b :: t =>
    match matchedBookings fd t, rowMatch b fd with
    | some l, some true => some (b :: l)
    | some l, some false => some l
    | _, _ => none

/-- get_count: normalize the caller filters exactly as get_list does, then
force status to Approved on top of them, and count the groups the store
returns for a COUNT(1) grouped by package, booking_date. -/
def get_count (db : Db) (filters : Option FilterArg) : Option Nat :=
  let user : Dict := match filters with
    | none => []
    | some (.list l) => simple_filters_to_dict l
    | some (.dict m) => m
  let fd := dictSet user (FVal.str "status") (FVal.str "Approved")
  match matchedBookings fd db.bookings with
  | none => none
  | some rows =>
    some ((rows.map (fun b => (b.package, b.booking_date))).dedup).length

/-- A Booking Participant child row as the store returns it: the parent
booking identity and the record. -/
structure PRow where
  parent : String
  payload : Participant
deriving DecidableEq, Repr

/-- A Variation Quantity child row as the store returns it. -/
structure VRow where
  parent : String
  variation : String
  quantity : Int
deriving DecidableEq, Repr

/-- The Booking Participant child table, derived from the documents. -/
def participantRows (db : Db) : List PRow :=
  db.bookings.flatMap (fun b => b.participants.map (fun p => { parent := b.name, payload := p }))

/-- The Variation Quantity child table, derived from the documents. -/
def variationRows (db : Db) : List VRow :=
  db.bookings.flatMap (fun b =>
    b.variation_quantity.map (fun it =>
      { parent := b.name, variation := it.variation, quantity := it.quantity }))

/-- GROUP BY variation with SUM(quantity) over child rows: one item per
distinct variation carrying the summed quantity. -/
def groupVariations (rows : List VRow) : List VariationItem :=
  ((rows.map (fun r => r.variation)).dedup).map (fun v =>
    { variation := v,
      quantity := ((rows.filter (fun r => r.variation == v)).map (fun r => r.quantity)).sum })

/-- The 1-based display index annotation (enumerate with start 1). -/
def withIdx (l : List α) : List (Nat × α) :=
  l.enum.map (fun p => (p.1 + 1, p.2))

/-- The failures of load_from_db: frappe.throw with a message, or the
DoesNotExistError of frappe.get_doc on a referenced document. -/
inductive TripErr where
  | thrown (msg : String)
  | missingDoc (doctype : String) (name : String)
deriving DecidableEq, Repr

/-- The composed Scheduled Trip entity. -/
structure TripDetail where
  name : String
  booking_date : Nat
  package : String
  capacity : Int
  quantity : Int
  bookings : List (Nat × Booking)
  participants : List (Nat × PRow)
  variation_quantity : List (Nat × VariationItem)
deriving DecidableEq, Repr

/-- load_from_db: resolve the representative booking (must be Approved,
otherwise frappe.throw Scheduled Trip not found), resolve its package and
that packages resource, collect every Approved booking sharing the
representative key, the child participant rows and the variation totals of
those bookings, each list annotated with 1-based display indexes, and
compose the trip with the summed quantity. -/
def load_from_db (db : Db) (name : String) : Except TripErr TripDetail :=
  match db.bookings.find? (fun b => b.status == "Approved" && b.name == name) with
  | none => .error (.thrown "Scheduled Trip not found")
  | some row =>
    match db.packages.find? (fun p => p.name == row.package) with
    | none => .error (.missingDoc "Package" row.package)
    | some pkg =>
      match db.resources.find? (fun r => r.name == pkg.resource) with
      | none => .error (.missingDoc "Resource" pkg.resource)
      | some res =>
        let bookings_doc := db.bookings.filter (fun b =>
          b.status == "Approved" && b.booking_date == row.booking_date && b.package == row.package)
        let names := bookings_doc.map (fun b => b.name)
        let participants_doc := (participantRows db).filter (fun pr => names.contains pr.parent)
        let variations_doc := groupVariations
          ((variationRows db).filter (fun vr => names.contains vr.parent))
        .ok {
          name := name,
          booking_date := row.booking_date,
          package := row.package,
          capacity := res.capacity,
          quantity := (bookings_doc.map (fun b => b.quantity)).sum,
          bookings := withIdx bookings_doc,
          participants := withIdx participants_doc,
          variation_quantity := withIdx variations_doc }

/-! ## Definitions taken from the wording of the spec (for refinement
claims) -/

/-- The constituent bookings of a trip key as the spec words them: the
Approved bookings sharing the (package, booking_date) key. -/
def constituent (db : Db) (pk : String) (d : Nat) : List Booking :=
  db.bookings.filter (fun b =>
    b.status == "Approved" && b.booking_date == d && b.package == pk)

/-- The bookings of one (package, booking_date) group of the get_list query
as the spec words them: Approved, matching the normalized filters, sharing
the key. -/
def approvedMatching (db : Db) (fd : Dict) (pk : String) (d : Nat) : List Booking :=
  db.bookings.filter (fun b =>
    (b.package == pk && b.booking_date == d) && (b.status == "Approved" && condMatch fd b))

/-- Tuples simple_filters_to_dict keeps: arity 4 with the equality
operator. -/
def tupleKept (t : List FVal) : Bool :=
  match t with
  | [_, _, op, _] => op == FVal.str "="
  | _ => false

/-- Modelled from the claim under test (C4): the number of distinct
(package, booking_date) groups among Approved bookings when the caller
filters are normalized exactly as listTrips normalizes them, honoring only
the recognized keys package and booking_date.  This is the reading the
claim asserts for countTrips; it is compared against get_count. -/
def countTripsListNorm (db : Db) (filters : Option FilterArg) : Nat :=
  let fd := normFilters filters
  (((db.bookings.filter (fun b => b.status == "Approved" && condMatch fd b)).map
      (fun b => (b.package, b.booking_date))).dedup).length

/-- The columns of the Booking table (the keys the store accepts in a
filters dict). -/
def knownColumns : List String :=
  ["name", "booking_name", "email", "contact_number", "package",
   "booking_date", "status", "quantity"]

/-- A filter key the store accepts: a string naming a Booking column. -/
def keyKnown : FVal → Bool
  | .str f => f ∈ knownColumns
  | _ => false

/-- Propositional reading of a filters dict: every entry is a string key
naming a column whose value in the row equals the filter value. -/
def dictSat (b : Booking) (fd : Dict) : Prop :=
  ∀ kv ∈ fd, ∃ f, kv.1 = FVal.str f ∧ b.column f = some kv.2

instance (b : Booking) (fd : Dict) : Decidable (dictSat b fd) := by
  unfold dictSat
  have : ∀ kv : FVal × FVal, Decidable (∃ f, kv.1 = FVal.str f ∧ b.column f = some kv.2) := by
    intro kv
    rcases kv with ⟨k, v⟩
    cases k with
    | str s =>
      by_cases h : b.column s = some v
      · exact isTrue ⟨s, rfl, h⟩
      · refine isFalse ?_
        rintro ⟨f, hf, hc⟩
        cases hf
        exact h hc
    | nat n =>
      refine isFalse ?_
      rintro ⟨f, hf, _⟩
      cases hf
    | int n =>
      refine isFalse ?_
      rintro ⟨f, hf, _⟩
      cases hf
  exact List.decidableBAll _ fd

/-! ## Concrete data for witnesses and counterexamples -/

/-- A concrete environment instantiating the framework collaborators. -/
def exEnv : Env :=
  { validEmail := fun e => e != "",
    getdate := fun s => if s == "" then none else some 601,
    newName := "B9" }

def exVarA2 : VariationItem := { variation := "Adult", quantity := 2 }

def exVarC1 : VariationItem := { variation := "Child", quantity := 1 }

def exB1 : Booking :=
  { name := "B1", booking_name := "Alice", email := "alice@x.com",
    contact_number := "111", package := "P1", booking_date := 601,
    status := "Created", participants := [], special_requests := [],
    variation_quantity := [exVarA2, exVarC1], quantity := 3 }

def exB2 : Booking :=
  { name := "B2", booking_name := "Bob", email := "bob@x.com",
    contact_number := "222", package := "P1", booking_date := 601,
    status := "Approved", participants := [[("full_name", "Bob")]],
    special_requests := [], variation_quantity := [exVarA2], quantity := 2 }

def exB3 : Booking :=
  { name := "B3", booking_name := "Cara", email := "cara@x.com",
    contact_number := "333", package := "P1", booking_date := 601,
    status := "Approved", participants := [], special_requests := [],
    variation_quantity := [exVarC1], quantity := 1 }

def exB4 : Booking :=
  { name := "B4", booking_name := "Dan", email := "dan@x.com",
    contact_number := "444", package := "P2", booking_date := 600,
    status := "Approved", participants := [], special_requests := [],
    variation_quantity := [{ variation := "Adult", quantity := 5 }], quantity := 5 }

def exB5 : Booking :=
  { name := "B5", booking_name := "Eve", email := "eve@x.com",
    contact_number := "555", package := "P2", booking_date := 601,
    status := "Pending", participants := [], special_requests := [],
    variation_quantity := [exVarA2], quantity := 2 }

def exPkg1 : Package := { name := "P1", package_name := "Island Tour", resource := "R1" }

def exPkg2 : Package := { name := "P2", package_name := "City Tour", resource := "R1" }

def exRes1 : Resource := { name := "R1", resource_name := "Boat", capacity := 10 }

def exDb : Db :=
  { bookings := [exB1, exB2, exB3, exB4, exB5],
    packages := [exPkg1, exPkg2],
    resources := [exRes1] }

/-- Arguments for the create counterexample: every required field present,
line items empty, package absent from the catalog. -/
def exArgsGhost : CreateArgs :=
  { booking_name := "Trip", email := "alice@x.com", contact_number := "111",
    package := "Ghost", booking_date := "2024-06-01",
    variation_quantity := some [], participants := none, special_requests := none }

/-- Arguments for the create witness: a valid call with two line items. -/
def exArgsOk : CreateArgs :=
  { booking_name := "Trip", email := "alice@x.com", contact_number := "111",
    package := "P1", booking_date := "2024-06-01",
    variation_quantity := some [exVarA2, exVarC1], participants := none,
    special_requests := none }

/-- Arguments with an empty line item list but every other validation
passing (package P1 exists). -/
def exArgsEmptyP1 : CreateArgs :=
  { booking_name := "Trip", email := "alice@x.com", contact_number := "111",
    package := "P1", booking_date := "2024-06-01",
    variation_quantity := some [], participants := none, special_requests := none }

/-- A two-record manifest for the update_manifest witness. -/
def exPsTwo : List Participant :=
  [[("full_name", "Bea")], [("full_name", "Max")]]

/-- A caller filters dict on the recognized key package. -/
def exDictP1 : Dict := [(FVal.str "package", FVal.str "P1")]

/-- A caller filters dict on the unrecognized key email (ignored by
get_list, applied by get_count). -/
def exFiltersEmail : Option FilterArg :=
  some (.dict [(FVal.str "email", FVal.str "bob@x.com")])

/-- A list-shaped filter tuple with a non-equality operator. -/
def exTupleLike : List FVal :=
  [FVal.str "tabBooking", FVal.str "package", FVal.str "like", FVal.str "P1"]

/-- A list-shaped filter tuple with the equality operator. -/
def exTupleEq : List FVal :=
  [FVal.str "tabBooking", FVal.str "package", FVal.str "=", FVal.str "P1"]

/-- The trip detail load_from_db composes for booking B2 of exDb. -/
def exTrip : TripDetail :=
  { name := "B2", booking_date := 601, package := "P1", capacity := 10,
    quantity := 3,
    bookings := [(1, exB2), (2, exB3)],
    participants := [(1, { parent := "B2", payload := [("full_name", "Bob")] })],
    variation_quantity := [(1, { variation := "Adult", quantity := 2 }),
                           (2, { variation := "Child", quantity := 1 })] }

/-- The first result row of get_list on exDb without filters (the P2 group
of date 600, which sorts first). -/
def exRowCity : TripRowOut :=
  { name := "B4", booking_date := 600, package := "City Tour",
    resource := "R1", resource_name := "Boat", capacity := 10, quantity := 5,
    id := "City Tour-600" }

/-! ## Helper lemmas -/

theorem find?_saveBooking (l : List Booking) (nm : String) (b2 : Booking)
    (h : b2.name = nm) :
    (l.map (fun x => if x.name == b2.name then b2 else x)).find? (fun x => x.name == nm)
      = (l.find? (fun x => x.name == nm)).map (fun _ => b2) := by
  induction l with
  | nil => rfl
  | cons a t ih =>
    by_cases ha : a.name = nm
    · have e1 : (if a.name == b2.name then b2 else a) = b2 := by
        simp [h, ha]
      rw [List.map_cons, e1, List.find?_cons, List.find?_cons]
      have hb2 : (b2.name == nm) = true := by simp [h]
      have hpa : (a.name == nm) = true := by simp [ha]
      rw [hb2, hpa]
      rfl
    · have e1 : (if a.name == b2.name then b2 else a) = a := by
        simp [h, ha]
      rw [List.map_cons, e1, List.find?_cons, List.find?_cons]
      have hpa : (a.name == nm) = false := by simp [ha]
      rw [hpa, ih]

theorem strStarts_append_of (pre s t : String) (h : strStarts pre s = true) :
    strStarts pre (s ++ t) = true := by
  unfold strStarts at h ⊢
  have hs : s.data.take pre.data.length = pre.data := eq_of_beq h
  have hlen : pre.data.length ≤ s.data.length := by
    have h2 := congrArg List.length hs
    rw [List.length_take] at h2
    omega
  rw [String.data_append, List.take_append_of_le_length hlen, hs]
  exact beq_self_eq_true _

theorem strStarts_of_append (pre t : String) : strStarts pre (pre ++ t) = true := by
  apply strStarts_append_of
  unfold strStarts
  rw [List.take_length]
  exact beq_self_eq_true _

/-! ## Claim C1 -/

/-- Claim C1: finalize succeeds if and only if the booking exists and its
status is exactly Created; then the stored status becomes Pending and the
envelope reports it; a booking in any other status fails with the
already-finalized InvalidState message, and a missing booking fails with
the not-found message; in both failure cases the store is unchanged. -/
theorem finalize_state_machine (db : Db) (nm : String) :
    ((finalize db nm).2.isSuccess = true ↔
      ∃ b, db.bookings.find? (fun x => x.name == nm) = some b ∧ b.status = "Created")
    ∧ (db.bookings.find? (fun x => x.name == nm) = none →
        finalize db nm = (db, .error ("Booking " ++ nm ++ " not found")))
    ∧ (∀ b, db.bookings.find? (fun x => x.name == nm) = some b →
        (b.status = "Created" →
          (finalize db nm).2 = .success
            { name := b.name, booking_name := b.booking_name, status := "Pending" }
            "Booking status updated successfully"
          ∧ (finalize db nm).1.bookings.find? (fun x => x.name == nm)
              = some { b with status := "Pending" }
          ∧ (finalize db nm).1.packages = db.packages
          ∧ (finalize db nm).1.resources = db.resources)
        ∧ (b.status ≠ "Created" →
          finalize db nm
            = (db, .error ("Failed to update booking status: Booking " ++ nm ++ " already finalized")))) := by
  cases hf : db.bookings.find? (fun x => x.name == nm) with
  | none =>
    have hfin : finalize db nm = (db, .error ("Booking " ++ nm ++ " not found")) := by
      simp [finalize, hf]
    refine ⟨?_, fun _ => hfin, ?_⟩
    · rw [hfin]
      simp only [ApiResult.isSuccess]
      constructor
      · intro hc
        cases hc
      · rintro ⟨b, hb, _⟩
        exact Option.noConfusion hb
    · intro b hb
      exact Option.noConfusion hb
  | some b0 =>
    have hname : b0.name = nm := by
      have := List.find?_some hf
      simpa using this
    by_cases hst : b0.status = "Created"
    · have hst2 : (b0.status == "Created") = true := by simp [hst]
      have hfin : finalize db nm
          = (saveBooking db { b0 with status := "Pending" },
             .success { name := b0.name, booking_name := b0.booking_name, status := "Pending" }
               "Booking status updated successfully") := by
        simp [finalize, hf, hst2]
      refine ⟨?_, ?_, ?_⟩
      · rw [hfin]
        constructor
        · intro _
          exact ⟨b0, rfl, hst⟩
        · intro _
          rfl
      · intro hnone
        exact Option.noConfusion hnone
      · intro b hb
        injection hb with hb
        subst hb
        refine ⟨fun _ => ⟨?_, ?_, ?_, ?_⟩, fun hc => absurd hst hc⟩
        · rw [hfin]
        · rw [hfin]
          show (saveBooking db _).bookings.find? _ = _
          unfold saveBooking
          rw [find?_saveBooking db.bookings nm { b0 with status := "Pending" } hname, hf]
          rfl
        · rw [hfin]
          rfl
        · rw [hfin]
          rfl
    · have hst2 : (b0.status == "Created") = false := by simp [hst]
      have hfin : finalize db nm
          = (db, .error ("Failed to update booking status: Booking " ++ nm ++ " already finalized")) := by
        simp [finalize, hf, hst2]
      refine ⟨?_, ?_, ?_⟩
      · rw [hfin]
        simp only [ApiResult.isSuccess]
        constructor
        · intro hc
          cases hc
        · rintro ⟨b, hb, hbst⟩
          injection hb with hb
          subst hb
          exact absurd hbst hst
      · intro hnone
        exact Option.noConfusion hnone
      · intro b hb
        injection hb with hb
        subst hb
        exact ⟨fun hc => absurd hc hst, fun _ => hfin⟩

/-- Witness for C1: on exDb, finalize of the Created booking B1 succeeds. -/
theorem finalize_state_machine_w :
    (finalize exDb "B1").2.isSuccess = true :=
  (finalize_state_machine exDb "B1").1.mpr ⟨exB1, by decide, by decide⟩

/-! ## Claim C2 -/

/-- Claim C2: for an existing booking, update_manifest with more
participants than the stored quantity fails with the too-many-participants
message and leaves the store (hence the stored roster) unchanged; with at
most quantity participants it succeeds and the stored roster is wholly
replaced by the supplied sequence (each record tagged with its doctype). -/
theorem update_manifest_ceiling (db : Db) (nm : String) (ps : List Participant)
    (b : Booking) (hfind : db.bookings.find? (fun x => x.name == nm) = some b) :
    ((ps.length : Int) > b.quantity →
      update_manifest db nm (some ps)
        = (db, .error "Failed to update booking status: Manifest has too many participants"))
    ∧ ((ps.length : Int) ≤ b.quantity →
      (update_manifest db nm (some ps)).2 = .success
          { name := b.name, booking_name := b.booking_name, status := b.status,
            participants := ps.map tagParticipant }
          "Booking status updated successfully"
      ∧ (update_manifest db nm (some ps)).1.bookings.find? (fun x => x.name == nm)
          = some { b with participants := ps.map tagParticipant }) := by
  have hname : b.name = nm := by
    have := List.find?_some hfind
    simpa using this
  constructor
  · intro hgt
    simp [update_manifest, hfind, hgt]
  · intro hle
    have hgt2 : ¬((ps.length : Int) > b.quantity) := by omega
    have hfin : update_manifest db nm (some ps)
        = (saveBooking db { b with participants := ps.map tagParticipant },
           .success { name := b.name, booking_name := b.booking_name, status := b.status,
                      participants := ps.map tagParticipant }
             "Booking status updated successfully") := by
      simp [update_manifest, hfind, hgt2]
    constructor
    · rw [hfin]
    · rw [hfin]
      show (saveBooking db _).bookings.find? _ = _
      unfold saveBooking
      rw [find?_saveBooking db.bookings nm { b with participants := ps.map tagParticipant } hname, hfind]
      rfl

/-- Witness for C2: on exDb, booking B2 has quantity 2 and a two-record
manifest is accepted. -/
theorem update_manifest_ceiling_w :
    ((exPsTwo.length : Int) ≤ exB2.quantity)
    ∧ (update_manifest exDb "B2" (some exPsTwo)).2 = .success
        { name := exB2.name, booking_name := exB2.booking_name, status := exB2.status,
          participants := exPsTwo.map tagParticipant }
        "Booking status updated successfully" :=
  ⟨by decide,
   ((update_manifest_ceiling exDb "B2" exPsTwo exB2 (by decide)).2 (by decide)).1⟩

/-! ## Claim C10 -/

/-- Claim C10: update_manifest with the participants argument omitted (None)
fails before any write: the len call on None raises, the error envelope is
returned, and the stored roster of the booking is unaltered (the omission
is not treated as an empty roster). -/
theorem update_manifest_missing_arg (db : Db) (nm : String) (b : Booking)
    (hfind : db.bookings.find? (fun x => x.name == nm) = some b) :
    update_manifest db nm none
      = (db, .error "Failed to update booking status: object of type NoneType has no len()")
    ∧ (update_manifest db nm none).1.bookings.find? (fun x => x.name == nm) = some b := by
  refine ⟨by simp [update_manifest, hfind], ?_⟩
  simp [update_manifest, hfind]

/-- Witness for C10: on exDb, booking B2 keeps its roster when
update_manifest is called without participants. -/
theorem update_manifest_missing_arg_w :
    update_manifest exDb "B2" none
      = (exDb, .error "Failed to update booking status: object of type NoneType has no len()")
    ∧ (update_manifest exDb "B2" none).1.bookings.find? (fun x => x.name == "B2") = some exB2 :=
  update_manifest_missing_arg exDb "B2" exB2 (by decide)

/-! ## Claim C9 -/

/-- Claim C9: load_from_db fails with the thrown Scheduled Trip not found
error exactly when no stored booking has the requested identity with status
Approved (in particular when the booking exists in a non-Approved status);
any later failure of the load is a different error. -/
theorem load_trip_notfound_iff (db : Db) (nm : String) :
    load_from_db db nm = .error (.thrown "Scheduled Trip not found")
      ↔ ∀ b ∈ db.bookings, ¬(b.status = "Approved" ∧ b.name = nm) := by
  cases hf : db.bookings.find? (fun b => b.status == "Approved" && b.name == nm) with
  | none =>
    have hr : ∀ b ∈ db.bookings, ¬(b.status = "Approved" ∧ b.name = nm) := by
      intro b hb hcon
      have := List.find?_eq_none.mp hf b hb
      simp [hcon.1, hcon.2] at this
    have hl : load_from_db db nm = .error (.thrown "Scheduled Trip not found") := by
      simp [load_from_db, hf]
    exact iff_of_true hl hr
  | some row =>
    have hrow := List.find?_some hf
    have hmem := List.mem_of_find?_eq_some hf
    have hst : row.status = "Approved" := by
      have := hrow
      simp at this
      exact this.1
    have hnm : row.name = nm := by
      have := hrow
      simp at this
      exact this.2
    have hr : ¬(∀ b ∈ db.bookings, ¬(b.status = "Approved" ∧ b.name = nm)) := by
      intro hall
      exact hall row hmem ⟨hst, hnm⟩
    refine iff_of_false ?_ hr
    cases hp : db.packages.find? (fun p => p.name == row.package) with
    | none =>
      have hl : load_from_db db nm = .error (.missingDoc "Package" row.package) := by
        simp [load_from_db, hf, hp]
      rw [hl]
      simp
    | some pkg =>
      cases hres : db.resources.find? (fun r => r.name == pkg.resource) with
      | none =>
        have hl : load_from_db db nm = .error (.missingDoc "Resource" pkg.resource) := by
          simp [load_from_db, hf, hp, hres]
        rw [hl]
        simp
      | some res =>
        have hl : (load_from_db db nm).isOk = true := by
          simp [load_from_db, hf, hp, hres, Except.isOk, Except.toBool]
        intro hc
        rw [hc] at hl
        simp [Except.isOk, Except.toBool] at hl

/-- Witness for C9: booking B1 exists in exDb but is not Approved, so the
trip load fails with the not-found error. -/
theorem load_trip_notfound_iff_w :
    load_from_db exDb "B1" = .error (.thrown "Scheduled Trip not found") :=
  (load_trip_notfound_iff exDb "B1").mpr (by decide)

/-! ## Claim C6 -/

theorem createChecks_ok_inv (env : Env) (db : Db) (a : CreateArgs) (b : Booking)
    (hc : createChecks env db a = .ok b) :
    b.quantity = sumQuantities (a.variation_quantity.getD [])
    ∧ b.status = "Created" := by
  unfold createChecks at hc
  split at hc
  · split at hc
    · exact Except.noConfusion hc
    · split at hc
      · exact Except.noConfusion hc
      · split at hc
        · exact Except.noConfusion hc
        · split at hc
          · injection hc with hc
            subst hc
            exact ⟨rfl, rfl⟩
          · exact Except.noConfusion hc
  · exact Except.noConfusion hc

theorem createChecks_falsy_error (env : Env) (db : Db) (a : CreateArgs)
    (hfal : falsyList a.variation_quantity = true) :
    ∃ e, createChecks env db a = Except.error e := by
  unfold createChecks
  split
  · split
    · exact ⟨_, rfl⟩
    · split
      · exact ⟨_, rfl⟩
      · exact ⟨_, rfl⟩
  · exact ⟨_, rfl⟩

/-- Counterexample for C6: with an empty line-item sequence but a package
that does not exist, create fails with the NotFound failure of the package
lookup (which precedes the line-item check), not with InvalidInput, so the
claim that create with empty line items always fails with InvalidInput is
false as stated. -/
theorem create_empty_items_cex :
    falsyList exArgsGhost.variation_quantity = true
    ∧ createChecks exEnv exDb exArgsGhost = .error (.packageMissing "Ghost")
    ∧ CreateErr.isInvalidInput (.packageMissing "Ghost") = false
    ∧ (create exEnv exDb exArgsGhost).2
        = (.error "Failed to create booking: Package Ghost not found" : ApiResult Booking) :=
  ⟨by decide, by rfl, by decide, by decide⟩

/-- Claim C6 amended: a successfully created booking carries quantity equal
to the sum of its line item quantities and is appended to the store; a
create call with an empty or missing line-item sequence always fails and
leaves the store unchanged, and the failure is the InvalidInput error
Invalid variations provided whenever the checks that precede the line-item
check (required fields, package existence, date parsing) pass — if the
package is missing the failure is NotFound instead. -/
theorem create_quantity_amended (env : Env) (db : Db) (a : CreateArgs) :
    (∀ b m, (create env db a).2 = .success b m →
      b.quantity = sumQuantities (a.variation_quantity.getD [])
      ∧ (create env db a).1.bookings = db.bookings ++ [b])
    ∧ (falsyList a.variation_quantity = true →
      (create env db a).1 = db ∧ (create env db a).2.isSuccess = false)
    ∧ (∀ pkg d, falsyList a.variation_quantity = true → requiredOk a = true →
      db.packages.find? (fun p => p.name == a.package) = some pkg →
      env.getdate a.booking_date = some d →
      createChecks env db a = .error .noVariations
      ∧ (create env db a).2 = .error ("Failed to create booking: " ++ CreateErr.message .noVariations)
      ∧ CreateErr.isInvalidInput .noVariations = true) := by
  refine ⟨?_, ?_, ?_⟩
  · intro b m hsucc
    cases hc : createChecks env db a with
    | error e =>
      unfold create at hsucc
      rw [hc] at hsucc
      exact ApiResult.noConfusion hsucc
    | ok b0 =>
      unfold create at hsucc ⊢
      rw [hc] at hsucc ⊢
      have hb : b0 = b := by
        have h2 : ApiResult.success b0 "Booking created successfully" = ApiResult.success b m := hsucc
        injection h2
      subst hb
      exact ⟨(createChecks_ok_inv env db a b0 hc).1, rfl⟩
  · intro hfal
    obtain ⟨e, he⟩ := createChecks_falsy_error env db a hfal
    unfold create
    rw [he]
    exact ⟨rfl, rfl⟩
  · intro pkg d hfal hreq hp hd
    have h1 : createChecks env db a = .error .noVariations := by
      unfold createChecks
      rw [if_pos hreq]
      split
      · next heq =>
        rw [hp] at heq
        exact Option.noConfusion heq
      · next pkg2 heq =>
        split
        · next heq2 =>
          rw [hd] at heq2
          exact Option.noConfusion heq2
        · next d2 heq2 =>
          rw [if_pos hfal]
    refine ⟨h1, ?_, rfl⟩
    unfold create
    rw [h1]

/-- Witness for C6: on exDb, a create call with empty line items, package
P1 present and all other validations passing fails with the InvalidInput
error Invalid variations provided; and the successful call exArgsOk creates
a booking whose quantity is the sum 3 of its line items. -/
theorem create_quantity_amended_w :
    (falsyList exArgsEmptyP1.variation_quantity = true
      ∧ createChecks exEnv exDb exArgsEmptyP1 = .error .noVariations)
    ∧ (∀ b m, (create exEnv exDb exArgsOk).2 = .success b m →
        b.quantity = sumQuantities (exArgsOk.variation_quantity.getD [])
        ∧ (create exEnv exDb exArgsOk).1.bookings = exDb.bookings ++ [b]) :=
  ⟨⟨by decide,
    ((create_quantity_amended exEnv exDb exArgsEmptyP1).2.2 exPkg1 601
      (by decide) (by decide) (by decide) (by decide)).1⟩,
   (create_quantity_amended exEnv exDb exArgsOk).1⟩

/-! ## Claim C7 -/

/-- Counterexample for C7: finalize on a missing booking returns an error
envelope whose message is not prefixed with the intent of the operation
(Failed to update booking status), so the claim that every failure message
carries the intent of the failing operation is false as stated. -/
theorem envelope_intent_cex :
    (finalize exDb "ghost").2 = .error "Booking ghost not found"
    ∧ strStarts "Failed to update booking status: " "Booking ghost not found" = false :=
  ⟨by decide, by decide⟩

/-- Claim C7 amended: every failure of create, finalize or update_manifest
rolls the store back to its entry state and returns the error envelope
(error constructor, the data object empty, a message); the message is
prefixed with the intent of the failing operation except in the dedicated
not-found branches of finalize and update_manifest, whose message is
Booking name not found without the intent wording. -/
theorem envelope_amended (env : Env) (db : Db) (a : CreateArgs) (nm : String)
    (ps : Option (List Participant)) :
    (∀ m, (create env db a).2 = .error m →
      (create env db a).1 = db ∧ strStarts "Failed to create booking: " m = true)
    ∧ (∀ m, (finalize db nm).2 = .error m →
      (finalize db nm).1 = db
      ∧ (strStarts "Failed to update booking status: " m = true
          ∨ m = "Booking " ++ nm ++ " not found"))
    ∧ (∀ m, (update_manifest db nm ps).2 = .error m →
      (update_manifest db nm ps).1 = db
      ∧ (strStarts "Failed to update booking status: " m = true
          ∨ m = "Booking " ++ nm ++ " not found")) := by
  refine ⟨?_, ?_, ?_⟩
  · intro m herr
    cases hc : createChecks env db a with
    | ok b0 =>
      unfold create at herr
      rw [hc] at herr
      exact ApiResult.noConfusion herr
    | error e =>
      unfold create at herr ⊢
      rw [hc] at herr ⊢
      have hm : "Failed to create booking: " ++ e.message = m := by
        have h2 : ApiResult.error ("Failed to create booking: " ++ e.message)
            = (ApiResult.error m : ApiResult Booking) := herr
        injection h2
      subst hm
      exact ⟨rfl, strStarts_of_append _ _⟩
  · intro m herr
    cases hf : db.bookings.find? (fun x => x.name == nm) with
    | none =>
      have hfin : finalize db nm = (db, .error ("Booking " ++ nm ++ " not found")) := by
        simp [finalize, hf]
      rw [hfin] at herr ⊢
      have hm : "Booking " ++ nm ++ " not found" = m := by
        have h2 : ApiResult.error ("Booking " ++ nm ++ " not found")
            = (ApiResult.error m : ApiResult FinalizeData) := herr
        injection h2
      subst hm
      exact ⟨rfl, Or.inr rfl⟩
    | some b =>
      cases hst : b.status == "Created" with
      | true =>
        have hfin : (finalize db nm).2.isSuccess = true := by
          simp [finalize, hf, hst, ApiResult.isSuccess]
        rw [herr] at hfin
        exact absurd hfin (by simp [ApiResult.isSuccess])
      | false =>
        have hfin : finalize db nm
            = (db, .error ("Failed to update booking status: Booking " ++ nm ++ " already finalized")) := by
          simp [finalize, hf, hst]
        rw [hfin] at herr ⊢
        have hm : "Failed to update booking status: Booking " ++ nm ++ " already finalized" = m := by
          have h2 : ApiResult.error
              ("Failed to update booking status: Booking " ++ nm ++ " already finalized")
              = (ApiResult.error m : ApiResult FinalizeData) := herr
          injection h2
        subst hm
        refine ⟨rfl, Or.inl ?_⟩
        have h1 : strStarts "Failed to update booking status: "
            "Failed to update booking status: Booking " = true := by decide
        exact strStarts_append_of _ _ _ (strStarts_append_of _ _ _ h1)
  · intro m herr
    cases hf : db.bookings.find? (fun x => x.name == nm) with
    | none =>
      have hfin : update_manifest db nm ps = (db, .error ("Booking " ++ nm ++ " not found")) := by
        simp [update_manifest, hf]
      rw [hfin] at herr ⊢
      have hm : "Booking " ++ nm ++ " not found" = m := by
        have h2 : ApiResult.error ("Booking " ++ nm ++ " not found")
            = (ApiResult.error m : ApiResult UMData) := herr
        injection h2
      subst hm
      exact ⟨rfl, Or.inr rfl⟩
    | some b =>
      cases ps with
      | none =>
        have hfin : update_manifest db nm none
            = (db, .error "Failed to update booking status: object of type NoneType has no len()") := by
          simp [update_manifest, hf]
        rw [hfin] at herr ⊢
        have hm : "Failed to update booking status: object of type NoneType has no len()" = m := by
          have h2 : ApiResult.error
              "Failed to update booking status: object of type NoneType has no len()"
              = (ApiResult.error m : ApiResult UMData) := herr
          injection h2
        subst hm
        exact ⟨rfl, Or.inl (by decide)⟩
      | some l =>
        by_cases hq : (l.length : Int) > b.quantity
        · have hfin : update_manifest db nm (some l)
              = (db, .error "Failed to update booking status: Manifest has too many participants") := by
            simp [update_manifest, hf, hq]
          rw [hfin] at herr ⊢
          have hm : "Failed to update booking status: Manifest has too many participants" = m := by
            have h2 : ApiResult.error
                "Failed to update booking status: Manifest has too many participants"
                = (ApiResult.error m : ApiResult UMData) := herr
            injection h2
          subst hm
          exact ⟨rfl, Or.inl (by decide)⟩
        · have hfin : (update_manifest db nm (some l)).2.isSuccess = true := by
            simp [update_manifest, hf, hq, ApiResult.isSuccess]
          rw [herr] at hfin
          exact absurd hfin (by simp [ApiResult.isSuccess])

/-- Witness for C7: the failed create of exArgsGhost leaves the store
unchanged and its message carries the create intent. -/
theorem envelope_amended_w :
    (create exEnv exDb exArgsGhost).2
      = (.error "Failed to create booking: Package Ghost not found" : ApiResult Booking)
    ∧ (create exEnv exDb exArgsGhost).1 = exDb
    ∧ strStarts "Failed to create booking: "
        "Failed to create booking: Package Ghost not found" = true :=
  ⟨by decide,
   ((envelope_amended exEnv exDb exArgsGhost "g" none).1
      "Failed to create booking: Package Ghost not found" (by decide)).1,
   ((envelope_amended exEnv exDb exArgsGhost "g" none).1
      "Failed to create booking: Package Ghost not found" (by decide)).2⟩

/-! ## Claim C8 -/

theorem dictGet_dictSet_self (m : Dict) (k v : FVal) :
    dictGet (dictSet m k v) k = some v := by
  unfold dictGet dictSet
  rw [List.find?_append]
  have h1 : (m.filter (fun kv => !(kv.1 == k))).find? (fun kv => kv.1 == k) = none := by
    rw [List.find?_eq_none]
    intro x hx
    have h2 := (List.mem_filter.mp hx).2
    simp at h2 ⊢
    exact h2
  rw [h1]
  simp [List.find?_cons]

theorem find?_filter_of_imp (l : List α) (p q : α → Bool)
    (h : ∀ x, p x = true → q x = true) :
    (l.filter q).find? p = l.find? p := by
  induction l with
  | nil => rfl
  | cons a t ih =>
    by_cases hp : p a = true
    · have hq := h a hp
      rw [List.filter_cons, if_pos hq, List.find?_cons, List.find?_cons, hp]
    · have hp2 : p a = false := by simpa using hp
      rw [List.filter_cons]
      by_cases hq : q a = true
      · rw [if_pos hq, List.find?_cons, List.find?_cons, hp2]
        exact ih
      · rw [if_neg hq, List.find?_cons, hp2]
        exact ih

theorem condMatch_restrict (m : Dict) :
    condMatch (m.filter (fun kv =>
      kv.1 == FVal.str "package" || kv.1 == FVal.str "booking_date"))
      = condMatch m := by
  funext b
  unfold condMatch dictGet
  rw [find?_filter_of_imp _ _ _ (fun x hx => by rw [hx]; rfl)]
  rw [find?_filter_of_imp _ _ _ (fun x hx => by rw [hx]; simp)]

theorem groupRows_congr (db : Db) (fd1 fd2 : Dict) (h : condMatch fd1 = condMatch fd2) :
    groupRows db fd1 = groupRows db fd2 := by
  unfold groupRows whereRows
  rw [h]

theorem sftdStep_not_kept (out : Dict) (t : List FVal) (h : tupleKept t = false) :
    sftdStep out t = out := by
  unfold sftdStep tupleKept at *
  rcases t with _ | ⟨x1, _ | ⟨x2, _ | ⟨x3, _ | ⟨x4, _ | ⟨x5, rest⟩⟩⟩⟩⟩ <;> simp_all

theorem sftd_append_eq_tuple (l : List (List FVal)) (a v : FVal) (f : String) :
    simple_filters_to_dict (l ++ [[a, FVal.str f, FVal.str "=", v]])
      = dictSet (simple_filters_to_dict l) (FVal.str f) v := by
  have h1 : simple_filters_to_dict (l ++ [[a, FVal.str f, FVal.str "=", v]])
      = sftdStep (simple_filters_to_dict l) [a, FVal.str f, FVal.str "=", v] := by
    unfold simple_filters_to_dict
    rw [List.foldl_append, List.foldl_cons, List.foldl_nil]
  rw [h1]
  simp only [sftdStep]
  rw [if_pos (beq_self_eq_true (FVal.str "="))]

/-- Claim C8: in list-shaped filters only arity-4 tuples with the equality
operator contribute (a tuple of any other arity or operator is silently
dropped from the normalization), an equality tuple is honored as a
field-to-value binding, the list shape is equivalent to its normalized dict,
and get_list only recognizes the keys package and booking_date: restricting
a dict to those keys does not change the result. -/
theorem filter_shape_normalization (db : Db) (args : ListArgs)
    (l l1 l2 : List (List FVal)) (t : List FVal) (a v : FVal) (f : String) (m : Dict) :
    (tupleKept t = false →
      simple_filters_to_dict (l1 ++ t :: l2) = simple_filters_to_dict (l1 ++ l2))
    ∧ dictGet (simple_filters_to_dict (l ++ [[a, FVal.str f, FVal.str "=", v]])) (FVal.str f)
        = some v
    ∧ get_list db { args with filters := some (.list l) }
        = get_list db { args with filters := some (.dict (simple_filters_to_dict l)) }
    ∧ get_list db { args with filters := some (.dict m) }
        = get_list db { args with filters := some (.dict (m.filter (fun kv =>
            kv.1 == FVal.str "package" || kv.1 == FVal.str "booking_date"))) } := by
  refine ⟨?_, ?_, ?_, ?_⟩
  · intro hkept
    unfold simple_filters_to_dict
    rw [List.foldl_append, List.foldl_append, List.foldl_cons, sftdStep_not_kept _ _ hkept]
  · rw [sftd_append_eq_tuple]
    exact dictGet_dictSet_self _ _ _
  · rfl
  · unfold get_list
    simp only [normFilters]
    rw [groupRows_congr db _ m (condMatch_restrict m)]

/-- Witness for C8: a like-operator tuple is dropped from the
normalization. -/
theorem filter_shape_normalization_w :
    tupleKept exTupleLike = false
    ∧ simple_filters_to_dict ([exTupleEq] ++ exTupleLike :: [])
        = simple_filters_to_dict ([exTupleEq] ++ []) :=
  ⟨by decide,
   (filter_shape_normalization exDb ⟨none, none, none⟩ [] [exTupleEq] [] exTupleLike
      (FVal.str "x") (FVal.str "x") "x" []).1 (by decide)⟩

/-! ## Claim C4 -/

theorem column_known (f : String) (hf : f ∈ knownColumns) (b : Booking) :
    ∃ v, b.column f = some v := by
  fin_cases hf <;> exact ⟨_, rfl⟩

theorem rowMatch_eval (b : Booking) (fd : Dict)
    (h : ∀ kv ∈ fd, keyKnown kv.1 = true) :
    rowMatch b fd = some (decide (dictSat b fd)) := by
  induction fd with
  | nil => simp [rowMatch, dictSat]
  | cons kv rest ih =>
    have hkv := h kv (List.mem_cons_self kv rest)
    have hrest : ∀ x ∈ rest, keyKnown x.1 = true :=
      fun x hx => h x (List.mem_cons_of_mem kv hx)
    rcases kv with ⟨k, v⟩
    cases k with
    | nat n => simp [keyKnown] at hkv
    | int n => simp [keyKnown] at hkv
    | str f =>
      have hfk : f ∈ knownColumns := by simpa [keyKnown] using hkv
      obtain ⟨col, hcol⟩ := column_known f hfk b
      simp only [rowMatch, ih hrest, hcol]
      congr 1
      have hiff : dictSat b ((FVal.str f, v) :: rest)
          ↔ (b.column f = some v ∧ dictSat b rest) := by
        unfold dictSat
        rw [List.forall_mem_cons]
        constructor
        · rintro ⟨⟨f2, hf2, hc2⟩, hr⟩
          injection hf2 with hf2
          subst hf2
          exact ⟨hc2, hr⟩
        · rintro ⟨hc, hr⟩
          exact ⟨⟨f, rfl, hc⟩, hr⟩
      have e1 : decide (dictSat b ((FVal.str f, v) :: rest))
          = (decide (b.column f = some v) && decide (dictSat b rest)) := by
        rw [decide_eq_decide.mpr hiff, Bool.decide_and]
      have e2 : decide (b.column f = some v) = (col == v) := by
        rw [hcol]
        by_cases hv : col = v
        · simp [hv]
        · simp [hv]
      rw [e1, e2, Bool.and_comm]

theorem matchedBookings_eval (fd : Dict) (l : List Booking)
    (h : ∀ kv ∈ fd, keyKnown kv.1 = true) :
    matchedBookings fd l = some (l.filter (fun b => decide (dictSat b fd))) := by
  induction l with
  | nil => rfl
  | cons b t ih =>
    simp only [matchedBookings, ih, rowMatch_eval b fd h]
    by_cases hb : dictSat b fd
    · simp [hb, List.filter_cons]
    · simp [hb, List.filter_cons]

/-- Counterexample for C4: the caller filter email=bob@x.com is not a
recognized listTrips key, yet get_count applies it (one distinct group),
while the claimed recognized-keys-only normalization ignores it (two
distinct groups among the Approved bookings of exDb). -/
theorem count_trips_cex :
    get_count exDb exFiltersEmail ≠ some (countTripsListNorm exDb exFiltersEmail) := by
  decide

/-- Claim C4 amended: countTrips counts the distinct (package, booking_date)
groups among the bookings that match every caller-supplied equality filter
(list-shaped input normalized exactly as listTrips normalizes it) with
status forced to Approved on top of the caller filters: every supplied key
is applied as an equality constraint against the corresponding Booking
column — unrecognized keys are not ignored; a caller-supplied status filter
is overridden; and with no filters the result is the number of distinct
groups among all Approved bookings. -/
theorem count_trips_grouping (db : Db) (m : Dict)
    (hk : ∀ kv ∈ dictSet m (FVal.str "status") (FVal.str "Approved"), keyKnown kv.1 = true) :
    get_count db (some (.dict m))
      = some (((db.bookings.filter (fun b =>
          decide (dictSat b (dictSet m (FVal.str "status") (FVal.str "Approved"))))).map
          (fun b => (b.package, b.booking_date))).toFinset.card)
    ∧ get_count db none
      = some (((db.bookings.filter (fun b => b.status == "Approved")).map
          (fun b => (b.package, b.booking_date))).toFinset.card)
    ∧ get_count db (some (.dict m))
      = get_count db (some (.dict (m.filter (fun kv => !(kv.1 == FVal.str "status"))))) := by
  refine ⟨?_, ?_, ?_⟩
  · simp only [get_count]
    rw [matchedBookings_eval _ _ hk, List.card_toFinset]
  · simp only [get_count]
    rw [matchedBookings_eval _ _ (by decide), List.card_toFinset]
    have hpt : ∀ b : Booking,
        decide (dictSat b (dictSet [] (FVal.str "status") (FVal.str "Approved")))
          = (b.status == "Approved") := by
      intro b
      by_cases hs : b.status = "Approved"
      · simp [dictSat, dictSet, Booking.column, hs]
      · simp [dictSat, dictSet, Booking.column, hs]
    rw [List.filter_congr (fun b _ => hpt b)]
  · have hsame : (m.filter (fun kv => !(kv.1 == FVal.str "status"))).filter
        (fun kv => !(kv.1 == FVal.str "status"))
        = m.filter (fun kv => !(kv.1 == FVal.str "status")) := by
      rw [List.filter_filter]
      exact List.filter_congr (fun x _ => Bool.and_self _)
    have hfd : dictSet m (FVal.str "status") (FVal.str "Approved")
        = dictSet (m.filter (fun kv => !(kv.1 == FVal.str "status")))
            (FVal.str "status") (FVal.str "Approved") := by
      unfold dictSet
      rw [hsame]
    simp only [get_count]
    rw [hfd]

/-- Witness for C4: the recognized filter package=P1 on exDb counts the one
distinct group of the Approved P1 bookings. -/
theorem count_trips_grouping_w :
    (∀ kv ∈ dictSet exDictP1 (FVal.str "status") (FVal.str "Approved"), keyKnown kv.1 = true)
    ∧ get_count exDb (some (.dict exDictP1))
        = some (((exDb.bookings.filter (fun b =>
            decide (dictSat b (dictSet exDictP1 (FVal.str "status") (FVal.str "Approved"))))).map
            (fun b => (b.package, b.booking_date))).toFinset.card) :=
  ⟨by decide, (count_trips_grouping exDb exDictP1 (by decide)).1⟩

/-! ## Claim C5 -/

theorem joinOne_inv (db : Db) (b : Booking) (r : JRow) (h : joinOne db b = some r) :
    r.b = b
    ∧ db.packages.find? (fun p => p.name == b.package) = some r.p
    ∧ db.resources.find? (fun q => q.name == r.p.resource) = some r.r := by
  unfold joinOne at h
  split at h
  · exact Option.noConfusion h
  · next p hp =>
    split at h
    · exact Option.noConfusion h
    · next r2 hr =>
      injection h with h
      subst h
      exact ⟨rfl, hp, hr⟩

theorem filterMap_joinOne_filter (db : Db) (l : List Booking) (q : Booking → Bool) :
    (l.filter q).filterMap (joinOne db)
      = (l.filterMap (joinOne db)).filter (fun r => q r.b) := by
  induction l with
  | nil => rfl
  | cons b t ih =>
    cases hj : joinOne db b with
    | none =>
      by_cases hq : q b = true
      · rw [List.filter_cons, if_pos hq, List.filterMap_cons, hj,
          List.filterMap_cons, hj, ih]
      · rw [List.filter_cons, if_neg hq, List.filterMap_cons, hj, ih]
    | some r =>
      have hrb : r.b = b := (joinOne_inv db b r hj).1
      by_cases hq : q b = true
      · rw [List.filter_cons, if_pos hq, List.filterMap_cons, hj,
          List.filterMap_cons, hj, List.filter_cons, if_pos (by rw [hrb]; exact hq), ih]
      · rw [List.filter_cons, if_neg hq, List.filterMap_cons, hj,
          List.filter_cons, if_neg (by rw [hrb]; exact hq), ih]

theorem whereRows_approved (db : Db) (fd : Dict) :
    whereRows { db with bookings := db.bookings.filter (fun b => b.status == "Approved") } fd
      = whereRows db fd := by
  show ((db.bookings.filter (fun b => b.status == "Approved")).filterMap (joinOne db)).filter
      (fun jr => jr.b.status == "Approved" && condMatch fd jr.b)
    = (db.bookings.filterMap (joinOne db)).filter
      (fun jr => jr.b.status == "Approved" && condMatch fd jr.b)
  rw [filterMap_joinOne_filter, List.filter_filter]
  exact List.filter_congr (fun r _ => by cases hs : r.b.status == "Approved" <;> simp [hs])

theorem get_list_approved (db : Db) (args : ListArgs) :
    get_list db args
      = get_list { db with bookings := db.bookings.filter (fun b => b.status == "Approved") } args := by
  simp only [get_list, groupRows]
  rw [whereRows_approved db (normFilters args.filters)]

theorem groupRows_length_le (db : Db) (fd : Dict) :
    (groupRows db fd).length ≤ db.bookings.length := by
  unfold groupRows
  refine le_trans (List.length_filterMap_le _ _) ?_
  refine le_trans ((List.dedup_sublist _).length_le) ?_
  rw [List.length_map]
  unfold whereRows
  refine le_trans (List.length_filter_le _ _) ?_
  unfold joinedRows
  exact List.length_filterMap_le _ _

theorem whereRows_group (db : Db) (fd : Dict) (pk : String) (d : Nat)
    (pkg : Package) (res : Resource)
    (hp : db.packages.find? (fun p => p.name == pk) = some pkg)
    (hr : db.resources.find? (fun q => q.name == pkg.resource) = some res) :
    (whereRows db fd).filter (fun x => x.b.package == pk && x.b.booking_date == d)
      = (approvedMatching db fd pk d).map (fun b => { b := b, p := pkg, r := res }) := by
  unfold whereRows joinedRows approvedMatching
  rw [List.filter_filter]
  generalize db.bookings = l
  induction l with
  | nil => rfl
  | cons b0 t0 ih =>
    rw [List.filterMap_cons]
    cases hj : joinOne db b0 with
    | none =>
      have hb0 : (b0.package == pk) = false := by
        cases hcc : b0.package == pk
        · rfl
        · exfalso
          have he : b0.package = pk := eq_of_beq hcc
          have hcon : joinOne db b0 = some { b := b0, p := pkg, r := res } := by
            simp [joinOne, he, hp, hr]
          rw [hcon] at hj
          exact Option.noConfusion hj
      simp only [List.filter_cons, hb0, Bool.false_and, Bool.and_false,
        Bool.false_eq_true, if_false]
      exact ih
    | some r =>
      rcases r with ⟨rb, rp, rr⟩
      obtain ⟨hrb, hp2, hr2⟩ := joinOne_inv db b0 ⟨rb, rp, rr⟩ hj
      simp only at hrb hp2 hr2
      have hrb2 : b0 = rb := hrb.symm
      subst hrb2
      simp only [List.filter_cons]
      by_cases hq : ((b0.package == pk && b0.booking_date == d)
          && (b0.status == "Approved" && condMatch fd b0)) = true
      · have hparts := hq
        simp only [Bool.and_eq_true] at hparts
        have he : b0.package = pk := eq_of_beq hparts.1.1
        have hpq : rp = pkg := by
          rw [he, hp] at hp2
          injection hp2 with h5
          exact h5.symm
        subst hpq
        have hrr : rr = res := by
          rw [hr] at hr2
          injection hr2 with h6
          exact h6.symm
        subst hrr
        rw [if_pos hq, if_pos hq, List.map_cons, ih]
      · rw [if_neg hq, if_neg hq]
        exact ih

/-- Claim C5: listTrips considers only Approved bookings, its rows are
ordered ascending by booking date and then by package display name,
pagination (OFFSET limit_start, LIMIT limit_page_length, defaults 0 and 20)
is applied after the ordering, at most limit_page_length rows are returned,
and every returned row belongs to one (package, booking_date) group whose
quantity is the sum of the quantities of the Approved, filter-matching
bookings of that group, joined with its package and resource. -/
theorem list_trips_order_pagination (db : Db) (fs : Option FilterArg) (M N : Nat) :
    get_list db { limit_start := some M, limit_page_length := some N, filters := fs }
      = get_list { db with bookings := db.bookings.filter (fun b => b.status == "Approved") }
          { limit_start := some M, limit_page_length := some N, filters := fs }
    ∧ List.Pairwise (fun a b : TripRowOut => keyOrd a.toTripRow b.toTripRow)
        (get_list db { limit_start := some M, limit_page_length := some N, filters := fs })
    ∧ (get_list db { limit_start := some M, limit_page_length := some N, filters := fs }).length ≤ N
    ∧ get_list db { limit_start := some M, limit_page_length := some N, filters := fs }
      = ((get_list db
            { limit_start := some 0, limit_page_length := some db.bookings.length, filters := fs }).drop
          M).take N
    ∧ get_list db { limit_start := none, limit_page_length := none, filters := fs }
      = get_list db { limit_start := some 0, limit_page_length := some 20, filters := fs }
    ∧ ∀ row ∈ get_list db { limit_start := some M, limit_page_length := some N, filters := fs },
        ∃ pk pkg res,
          db.packages.find? (fun p => p.name == pk) = some pkg
          ∧ pkg.package_name = row.package
          ∧ db.resources.find? (fun q => q.name == pkg.resource) = some res
          ∧ res.capacity = row.capacity
          ∧ row.id = row.package ++ "-" ++ toString row.booking_date
          ∧ row.quantity = ((approvedMatching db (normFilters fs) pk row.booking_date).map
              (fun b => b.quantity)).sum := by
  refine ⟨get_list_approved db _, ?_, ?_, ?_, rfl, ?_⟩
  · simp only [get_list, Option.getD_some]
    have hsorted : List.Pairwise keyOrd
        (List.insertionSort keyOrd (groupRows db (normFilters fs))) :=
      List.sorted_insertionSort keyOrd (groupRows db (normFilters fs))
    have hsub : ((List.insertionSort keyOrd (groupRows db (normFilters fs))).drop M).take N
        |>.Sublist (List.insertionSort keyOrd (groupRows db (normFilters fs))) :=
      (List.take_sublist _ _).trans (List.drop_sublist _ _)
    have h2 := List.Pairwise.sublist hsub hsorted
    rw [List.pairwise_map]
    exact h2
  · simp only [get_list, Option.getD_some]
    rw [List.length_map]
    exact List.length_take_le _ _
  · simp only [get_list, Option.getD_some]
    rw [List.drop_zero]
    have hlen : (List.insertionSort keyOrd (groupRows db (normFilters fs))).length
        ≤ db.bookings.length := by
      rw [(List.perm_insertionSort keyOrd _).length_eq]
      exact groupRows_length_le db _
    rw [List.take_of_length_le hlen, ← List.map_drop, ← List.map_take]
  · intro row hrow
    simp only [get_list, Option.getD_some] at hrow
    obtain ⟨t, ht, hteq⟩ := List.mem_map.mp hrow
    subst hteq
    have ht2 : t ∈ List.insertionSort keyOrd (groupRows db (normFilters fs)) :=
      List.mem_of_mem_drop (List.mem_of_mem_take ht)
    have ht3 : t ∈ groupRows db (normFilters fs) :=
      (List.perm_insertionSort keyOrd _).mem_iff.mp ht2
    simp only [groupRows] at ht3
    obtain ⟨key, hkey, heq⟩ := List.mem_filterMap.mp ht3
    cases hfl : (whereRows db (normFilters fs)).filter
        (fun jr => jr.b.package == key.1 && jr.b.booking_date == key.2) with
    | nil =>
      rw [hfl] at heq
      exact Option.noConfusion heq
    | cons jr tl =>
      rw [hfl] at heq
      injection heq with heq
      subst heq
      have hjr : jr ∈ (whereRows db (normFilters fs)).filter
          (fun jr => jr.b.package == key.1 && jr.b.booking_date == key.2) := by
        rw [hfl]
        exact List.mem_cons_self jr tl
      have hjr2 := List.mem_filter.mp hjr
      have hkeyeq := hjr2.2
      simp only [Bool.and_eq_true] at hkeyeq
      have hpk : jr.b.package = key.1 := eq_of_beq hkeyeq.1
      have hd : jr.b.booking_date = key.2 := eq_of_beq hkeyeq.2
      have hjw : jr ∈ whereRows db (normFilters fs) := hjr2.1
      have hjj : jr ∈ joinedRows db := (List.mem_filter.mp hjw).1
      obtain ⟨b0, hb0mem, hb0⟩ := List.mem_filterMap.mp hjj
      obtain ⟨hrb, hp2, hr2⟩ := joinOne_inv db b0 jr hb0
      refine ⟨key.1, jr.p, jr.r, ?_, rfl, ?_, rfl, rfl, ?_⟩
      · rw [← hpk, hrb]
        exact hp2
      · exact hr2
      · show ((jr :: tl).map (fun x => x.b.quantity)).sum = _
        rw [← hfl]
        have hgrp := whereRows_group db (normFilters fs) key.1 key.2 jr.p jr.r
          (by rw [← hpk, hrb]; exact hp2) hr2
        rw [hgrp, List.map_map]
        show _ = ((approvedMatching db (normFilters fs) key.1 jr.b.booking_date).map
          (fun b => b.quantity)).sum
        rw [hd]
        rfl

/-- Witness for C5: the first result row of get_list on exDb without
filters is the City Tour group of date 600 with quantity 5, and it carries
its package, resource, capacity, id and the summed quantity of its group. -/
theorem list_trips_order_pagination_w :
    exRowCity ∈ get_list exDb { limit_start := some 0, limit_page_length := some 5, filters := none }
    ∧ ∃ pk pkg res,
        exDb.packages.find? (fun p => p.name == pk) = some pkg
        ∧ pkg.package_name = exRowCity.package
        ∧ exDb.resources.find? (fun q => q.name == pkg.resource) = some res
        ∧ res.capacity = exRowCity.capacity
        ∧ exRowCity.id = exRowCity.package ++ "-" ++ toString exRowCity.booking_date
        ∧ exRowCity.quantity = ((approvedMatching exDb (normFilters none) pk
            exRowCity.booking_date).map (fun b => b.quantity)).sum :=
  ⟨by decide,
   (list_trips_order_pagination exDb none 0 5).2.2.2.2.2 exRowCity (by decide)⟩

/-! ## Claim C3 -/

theorem withIdx_snd (l : List α) : (withIdx l).map Prod.snd = l := by
  unfold withIdx
  rw [List.map_map]
  have h1 : (Prod.snd ∘ fun p : Nat × α => (p.1 + 1, p.2)) = Prod.snd := by
    funext p
    rfl
  rw [h1, List.enum_map_snd]

theorem withIdx_length (l : List α) : (withIdx l).length = l.length := by
  unfold withIdx
  rw [List.length_map, List.enum_length]

theorem withIdx_fst (l : List α) : (withIdx l).map Prod.fst = List.range' 1 l.length := by
  unfold withIdx
  rw [List.map_map]
  have h1 : (Prod.fst ∘ fun p : Nat × α => (p.1 + 1, p.2)) = (fun n => n + 1) ∘ Prod.fst := by
    funext p
    rfl
  rw [h1, ← List.map_map, List.enum_map_fst, List.range'_eq_map_range]
  exact List.map_congr_left (fun n _ => by omega)

theorem groupVariations_mem (rows : List VRow) (it : VariationItem)
    (h : it ∈ groupVariations rows) :
    it.quantity = ((rows.filter (fun r => r.variation == it.variation)).map
      (fun r => r.quantity)).sum
    ∧ it.variation ∈ rows.map (fun r => r.variation) := by
  unfold groupVariations at h
  obtain ⟨v, hv, hveq⟩ := List.mem_map.mp h
  subst hveq
  exact ⟨rfl, List.mem_dedup.mp hv⟩

theorem groupVariations_covers (rows : List VRow) (v : String)
    (h : v ∈ rows.map (fun r => r.variation)) :
    ∃ it ∈ groupVariations rows, it.variation = v := by
  unfold groupVariations
  exact ⟨_, List.mem_map_of_mem _ (List.mem_dedup.mpr h), rfl⟩

theorem variationRows_filter_sum (db : Db) (names : List String) (v : String) :
    (((variationRows db).filter (fun vr => names.contains vr.parent && vr.variation == v)).map
        (fun r => r.quantity)).sum
      = ((db.bookings.filter (fun b => names.contains b.name)).map (fun b =>
          ((b.variation_quantity.filter (fun x => x.variation == v)).map
            (fun x => x.quantity)).sum)).sum := by
  unfold variationRows
  generalize db.bookings = l
  induction l with
  | nil => rfl
  | cons b t ih =>
    rw [List.flatMap_cons, List.filter_append, List.map_append, List.sum_append]
    have hhead : ((List.filter (fun vr => names.contains vr.parent && vr.variation == v)
          (b.variation_quantity.map (fun it =>
            ({ parent := b.name, variation := it.variation, quantity := it.quantity } : VRow)))).map
          (fun r => r.quantity)).sum
        = (if names.contains b.name = true
            then ((b.variation_quantity.filter (fun x => x.variation == v)).map
              (fun x => x.quantity)).sum
            else 0) := by
      rw [List.filter_map, List.map_map]
      by_cases hn : names.contains b.name = true
      · rw [if_pos hn]
        have hcong : ∀ x ∈ b.variation_quantity,
            ((fun vr : VRow => names.contains vr.parent && vr.variation == v)
              ∘ (fun it => ({ parent := b.name, variation := it.variation, quantity := it.quantity } : VRow))) x
            = (x.variation == v) := by
          intro x _
          have hmem : b.name ∈ names := by simpa using hn
          simp [Function.comp, hmem]
        rw [List.filter_congr hcong]
        rfl
      · rw [if_neg hn]
        have hn2 : names.contains b.name = false := by
          cases hc : names.contains b.name
          · rfl
          · exact absurd hc hn
        have hcong : ∀ x ∈ b.variation_quantity,
            ((fun vr : VRow => names.contains vr.parent && vr.variation == v)
              ∘ (fun it => ({ parent := b.name, variation := it.variation, quantity := it.quantity } : VRow))) x
            = false := by
          intro x _
          have hmem : b.name ∉ names := by simpa using hn2
          simp [Function.comp, hmem]
        rw [List.filter_congr hcong, List.filter_false]
        rfl
    rw [hhead]
    simp only [List.filter_cons]
    by_cases hn : names.contains b.name = true
    · rw [if_pos hn, if_pos hn, List.map_cons, List.sum_cons, ih]
    · rw [if_neg hn, if_neg hn, ih, zero_add]

theorem filter_contains_names (db : Db) (P : Booking → Bool)
    (hnames : (db.bookings.map (fun b => b.name)).Nodup) (b : Booking)
    (hb : b ∈ db.bookings) :
    ((db.bookings.filter P).map (fun x => x.name)).contains b.name = P b := by
  cases hP : P b
  · cases hc : ((db.bookings.filter P).map (fun x => x.name)).contains b.name
    · rfl
    · exfalso
      have hmem : b.name ∈ (db.bookings.filter P).map (fun x => x.name) := by
        simpa using hc
      obtain ⟨b2, hb2, hname⟩ := List.mem_map.mp hmem
      have hb2mem : b2 ∈ db.bookings := (List.mem_filter.mp hb2).1
      have heqb : b2 = b := List.inj_on_of_nodup_map hnames hb2mem hb hname
      have hP2 := (List.mem_filter.mp hb2).2
      rw [heqb, hP] at hP2
      exact Bool.noConfusion hP2
  · have hmem : b ∈ db.bookings.filter P := List.mem_filter.mpr ⟨hb, hP⟩
    have h2 : b.name ∈ (db.bookings.filter P).map (fun x => x.name) :=
      List.mem_map_of_mem _ hmem
    simpa using h2

theorem filter_contains_eq (db : Db) (P : Booking → Bool)
    (hnames : (db.bookings.map (fun b => b.name)).Nodup) :
    db.bookings.filter (fun b =>
      ((db.bookings.filter P).map (fun x => x.name)).contains b.name)
      = db.bookings.filter P :=
  List.filter_congr (fun b hb => filter_contains_names db P hnames b hb)

/-- Claim C3: for a trip successfully loaded from a store whose booking
identities are unique, the reported quantity is the sum of the quantities of
the Approved bookings sharing the trip key, the constituent list is exactly
those bookings, the merged variation totals carry, per variation, the summed
quantity of that variation across all line items of the constituent
bookings (and exactly the variations occurring there), and the constituent
bookings, merged participants and merged variation totals each carry a
1-based display index. -/
theorem load_trip_aggregation (db : Db) (nm : String) (t : TripDetail)
    (hnames : (db.bookings.map (fun b => b.name)).Nodup)
    (h : load_from_db db nm = .ok t) :
    t.quantity = ((constituent db t.package t.booking_date).map (fun b => b.quantity)).sum
    ∧ t.bookings.map Prod.snd = constituent db t.package t.booking_date
    ∧ (∀ it ∈ t.variation_quantity,
        (it.2).quantity = ((constituent db t.package t.booking_date).map (fun b =>
          ((b.variation_quantity.filter (fun x => x.variation == (it.2).variation)).map
            (fun x => x.quantity)).sum)).sum)
    ∧ (∀ v, (∃ it ∈ t.variation_quantity, (it.2).variation = v)
        ↔ ∃ b ∈ constituent db t.package t.booking_date,
            ∃ x ∈ b.variation_quantity, x.variation = v)
    ∧ t.bookings.map Prod.fst = List.range' 1 t.bookings.length
    ∧ t.participants.map Prod.fst = List.range' 1 t.participants.length
    ∧ t.variation_quantity.map Prod.fst = List.range' 1 t.variation_quantity.length := by
  simp only [load_from_db] at h
  split at h
  · exact Except.noConfusion h
  · next row hfind =>
    split at h
    · exact Except.noConfusion h
    · next pkg hpkg =>
      split at h
      · exact Except.noConfusion h
      · next res hres =>
        injection h with h
        subst h
        refine ⟨rfl, withIdx_snd _, ?_, ?_, ?_, ?_, ?_⟩
        · intro it hit
          have hit2 : it.2 ∈ groupVariations ((variationRows db).filter (fun vr =>
              ((db.bookings.filter (fun b => b.status == "Approved"
                && b.booking_date == row.booking_date && b.package == row.package)).map
                (fun b => b.name)).contains vr.parent)) := by
            have h3 := List.mem_map_of_mem Prod.snd hit
            rwa [withIdx_snd] at h3
          obtain ⟨hq, _⟩ := groupVariations_mem _ _ hit2
          rw [hq, List.filter_filter]
          have hcomm : ∀ vr ∈ variationRows db,
              ((vr.variation == (it.2).variation)
                && ((db.bookings.filter (fun b => b.status == "Approved"
                  && b.booking_date == row.booking_date && b.package == row.package)).map
                  (fun b => b.name)).contains vr.parent)
              = (((db.bookings.filter (fun b => b.status == "Approved"
                  && b.booking_date == row.booking_date && b.package == row.package)).map
                  (fun b => b.name)).contains vr.parent
                && (vr.variation == (it.2).variation)) := by
            intro vr _
            exact Bool.and_comm _ _
          rw [List.filter_congr hcomm, variationRows_filter_sum,
            filter_contains_eq db _ hnames]
          rfl
        · intro v
          constructor
          · rintro ⟨it, hit, hitv⟩
            have hit2 : it.2 ∈ groupVariations ((variationRows db).filter (fun vr =>
                ((db.bookings.filter (fun b => b.status == "Approved"
                  && b.booking_date == row.booking_date && b.package == row.package)).map
                  (fun b => b.name)).contains vr.parent)) := by
              have h3 := List.mem_map_of_mem Prod.snd hit
              rwa [withIdx_snd] at h3
            obtain ⟨_, hvmem⟩ := groupVariations_mem _ _ hit2
            rw [hitv] at hvmem
            obtain ⟨vr, hvr, hvrv⟩ := List.mem_map.mp hvmem
            have hvr2 := List.mem_filter.mp hvr
            obtain ⟨b0, hb0mem, hb0row⟩ := List.mem_flatMap.mp hvr2.1
            obtain ⟨x, hx, hxeq⟩ := List.mem_map.mp hb0row
            have hparent : vr.parent = b0.name := by
              rw [← hxeq]
            have hb0in : b0 ∈ db.bookings.filter (fun b => b.status == "Approved"
                && b.booking_date == row.booking_date && b.package == row.package) := by
              have hcn := hvr2.2
              rw [hparent] at hcn
              rw [← filter_contains_eq db (fun b => b.status == "Approved"
                && b.booking_date == row.booking_date && b.package == row.package) hnames]
              exact List.mem_filter.mpr ⟨hb0mem, hcn⟩
            refine ⟨b0, hb0in, x, hx, ?_⟩
            rw [← hvrv, ← hxeq]
          · rintro ⟨b0, hb0, x, hx, hxv⟩
            have hb0mem : b0 ∈ db.bookings := (List.mem_filter.mp hb0).1
            have hxrow : ({ parent := b0.name, variation := x.variation, quantity := x.quantity } : VRow) ∈ variationRows db := by
              unfold variationRows
              exact List.mem_flatMap.mpr ⟨b0, hb0mem, List.mem_map_of_mem _ hx⟩
            have hcn : ((db.bookings.filter (fun b => b.status == "Approved"
                && b.booking_date == row.booking_date && b.package == row.package)).map
                (fun b => b.name)).contains b0.name = true := by
              have := filter_contains_names db (fun b => b.status == "Approved"
                && b.booking_date == row.booking_date && b.package == row.package)
                hnames b0 hb0mem
              rw [this]
              exact (List.mem_filter.mp hb0).2
            have hrowmem : ({ parent := b0.name, variation := x.variation, quantity := x.quantity } : VRow) ∈ (variationRows db).filter (fun vr =>
                ((db.bookings.filter (fun b => b.status == "Approved"
                  && b.booking_date == row.booking_date && b.package == row.package)).map
                  (fun b => b.name)).contains vr.parent) :=
              List.mem_filter.mpr ⟨hxrow, hcn⟩
            have hvmem : v ∈ ((variationRows db).filter (fun vr =>
                ((db.bookings.filter (fun b => b.status == "Approved"
                  && b.booking_date == row.booking_date && b.package == row.package)).map
                  (fun b => b.name)).contains vr.parent)).map (fun r => r.variation) := by
              rw [← hxv]
              exact List.mem_map_of_mem _ hrowmem
            obtain ⟨it0, hit0, hit0v⟩ := groupVariations_covers _ _ hvmem
            have hpair : ∃ p ∈ withIdx (groupVariations ((variationRows db).filter (fun vr =>
                ((db.bookings.filter (fun b => b.status == "Approved"
                  && b.booking_date == row.booking_date && b.package == row.package)).map
                  (fun b => b.name)).contains vr.parent))), Prod.snd p = it0 := by
              have h4 : it0 ∈ (withIdx (groupVariations ((variationRows db).filter (fun vr =>
                  ((db.bookings.filter (fun b => b.status == "Approved"
                    && b.booking_date == row.booking_date && b.package == row.package)).map
                    (fun b => b.name)).contains vr.parent)))).map Prod.snd := by
                rw [withIdx_snd]
                exact hit0
              exact List.mem_map.mp h4
            obtain ⟨p, hp, hpeq⟩ := hpair
            refine ⟨p, hp, ?_⟩
            rw [hpeq, hit0v]
        · rw [withIdx_length]
          exact withIdx_fst _
        · rw [withIdx_length]
          exact withIdx_fst _
        · rw [withIdx_length]
          exact withIdx_fst _

/-- Witness for C3: loading the trip of booking B2 on exDb composes the
expected detail, and its quantity 3 is the summed quantity of the two
Approved P1 bookings of date 601. -/
theorem load_trip_aggregation_w :
    (exDb.bookings.map (fun b => b.name)).Nodup
    ∧ load_from_db exDb "B2" = .ok exTrip
    ∧ exTrip.quantity
        = ((constituent exDb exTrip.package exTrip.booking_date).map (fun b => b.quantity)).sum :=
  ⟨by decide, by rfl,
   (load_trip_aggregation exDb "B2" exTrip (by decide) (by rfl)).1⟩

end Easytix
